import Mathlib

/-
Verification of the molinar-game-sdk core (src/math.js: seeded RNG and the
Supabase-backed multiplayer manager).

The JavaScript source is shallowly embedded. JS 32-bit coercions (`| 0`,
`>>>`, `Math.imul`) are modelled on `Nat` with explicit reduction modulo
2^32 of the unsigned representative; the durable "worlds" store is a map
from room ids to records; the stateful manager is modelled by explicit
state passing; timers are modelled by scheduled-flags in the manager
state; presence handlers are pure functions from the presence snapshot to
the updated spawned-set plus the list of callback invocations they emit.
-/

/-- 2^32, the modulus of JS unsigned 32-bit arithmetic. -/
def U32 : Nat := 4294967296

/-- Unsigned 32-bit representative of an integer, as produced by JS `| 0`
followed by reinterpretation as unsigned (`ToUint32`). -/
def toUint32 (i : Int) : Nat := (i % (4294967296 : Int)).toNat

/-- JS `Math.imul` on unsigned representatives: 32-bit wraparound product. -/
def jsImul (a b : Nat) : Nat := (a * b) % U32

/-- One step of the mulberry32 generator (src/math.js lines 13-20):
`seed += 0x6d2b79f5` is the state update, the returned numerator is the
unsigned 32-bit value whose division by 2^32 the JS closure returns.
Returns (new state, output numerator). -/
def mulberry32Step (s : Nat) : Nat × Nat :=
  let t0 := (s + 0x6D2B79F5) % U32
  let t1 := jsImul (t0 ^^^ (t0 >>> 15)) (t0 ||| 1)
  let t2 := t1 ^^^ ((t1 + jsImul (t1 ^^^ (t1 >>> 7)) (t1 ||| 61)) % U32)
  (t0, (t2 ^^^ (t2 >>> 14)) % U32)

/-- State of a mulberry32 closure seeded with `s` after `n` calls. -/
def mulberryState (s : Nat) : Nat → Nat
  | 0 => s
  | n + 1 => (mulberry32Step (mulberryState s n)).1

/-- Output numerator of the `n`-th call (0-based) of a mulberry32 closure
seeded with `s`. -/
def mulberryOut (s n : Nat) : Nat := (mulberry32Step (mulberryState s n)).2

/-- src/math.js lines 30-39: combine seed with integer positions.  For
integer `x`, `Math.floor(x) | 0` is `toUint32 x`; `Math.imul` is `jsImul`;
the trailing `>>> 0` is the final reduction. -/
def hashPosition (seed x z : Int) : Nat :=
  let ix := toUint32 x
  let iz := toUint32 z
  let h0 := toUint32 seed
  let h1 := jsImul (h0 ^^^ ix) 0x85EBCA6B
  let h2 := jsImul (h1 ^^^ iz) 0xC2B2AE35
  (h2 ^^^ (h2 >>> 16)) % U32

/-- The spec's description of the position hash, written directly as
modular arithmetic: multiply-combine seed with truncated x and z using the
two odd constants, with every product reduced mod 2^32, then one final
xor-shift (shift by 16 = division by 2^16). -/
def hashPositionWrap (seed x z : Int) : Nat :=
  let m1 := ((toUint32 seed ^^^ toUint32 x) * 0x85EBCA6B) % 2 ^ 32
  let m2 := ((m1 ^^^ toUint32 z) * 0xC2B2AE35) % 2 ^ 32
  m2 ^^^ (m2 / 2 ^ 16)

/-- A position generator created by `createPositionRandom` (src/math.js
lines 49-52): the closure captures its own fresh mulberry32 state seeded
with `hashPosition seed x z`.  The creation arguments and the number of
calls made so far are carried along so that properties of a generator can
be stated in terms of them. -/
structure PosGen where
  seed : Int
  x : Int
  z : Int
  st : Nat
  count : Nat

/-- src/math.js lines 49-52. -/
def createPositionRandom (seed x z : Int) : PosGen :=
  { seed := seed, x := x, z := z, st := hashPosition seed x z, count := 0 }

/-- A world of position generators created so far.  Generators share no
state: each list entry is one closure's private state. -/
structure RngWorld where
  gens : List PosGen

/-- Operations a client may perform: create a generator for a position, or
call (query) a previously created generator by its index. -/
inductive RngOp where
  | create (seed x z : Int)
  | query (g : Nat)

/-- Effect of one operation: `create` appends a fresh generator, `query`
advances that generator's private state and yields its output numerator. -/
def RngWorld.step (w : RngWorld) (op : RngOp) : RngWorld × Option Nat :=
  match op with
  | .create s x z => ({ gens := w.gens ++ [createPositionRandom s x z] }, none)
  | .query g =>
    match w.gens.get? g with
    | some gen =>
      let r := mulberry32Step gen.st
      ({ gens := w.gens.set g { gen with st := r.1, count := gen.count + 1 } }, some r.2)
    | none => (w, none)

/-- Run a list of operations. -/
def RngWorld.run (w : RngWorld) : List RngOp → RngWorld
  | [] => w
  | op :: ops => RngWorld.run (w.step op).1 ops

/-- Invariant: a generator's state is exactly the mulberry32 state reached
from `hashPosition seed x z` after `count` calls. -/
def GenOk (gen : PosGen) : Prop :=
  gen.st = mulberryState (hashPosition gen.seed gen.x gen.z) gen.count

/-- Invariant over a whole world. -/
def WorldOk (w : RngWorld) : Prop := ∀ gen ∈ w.gens, GenOk gen

/-- A row of the durable "worlds" table (src/math.js insert at lines
500-505): `seed`, nullable `owner_player_id`, display `name`.  The row id
is the key of the store map. -/
structure WorldRecord where
  seed : Nat
  owner_player_id : Option String
  name : String
deriving DecidableEq

/-- The durable store: room id to record, `none` marking "not found". -/
def Store := String → Option WorldRecord

/-- src/math.js lines 484-487:
`supabase.from("worlds").update({ owner_player_id: playerId }).eq("id", roomId)`.
The update filters rows by `id` only and sets `owner_player_id` on every
matching row; `seed` and `name` are untouched. -/
def updateOwnerWhereId (s : Store) (roomId pid : String) : Store :=
  fun key =>
    if key = roomId then (s key).map (fun w => { w with owner_player_id := some pid })
    else s key

/-- src/math.js lines 500-505: `supabase.from("worlds").insert({...})`.
Insert-if-absent: rejected (second component `false`) when a row with
this id already exists, in which case the store is unchanged. -/
def insertWorld (s : Store) (roomId : String) (seed : Nat) (pid : String) :
    Store × Bool :=
  match s roomId with
  | some _ => (s, false)
  | none =>
    (fun key =>
      if key = roomId then
        some { seed := seed, owner_player_id := some pid, name := "Untitled World" }
      else s key, true)

/-- Result of the world-resolution phase of `init`. -/
structure ResolveOutcome where
  worldSeed : Nat
  isHost : Bool
  store : Store

/-- src/math.js lines 494-523, the branch taken when the initial read
found no world record: set `worldSeed` to a fresh random seed and
`isHost = true`, attempt the insert; on rejection re-read the record and,
if found, adopt its seed with `isHost = false` (if the re-read finds
nothing the earlier assignments stand, as in the source).  `s` is the
store at insert time; the insert is rejected exactly when a record now
exists in it. -/
def createWorldPath (s : Store) (roomId pid : String) (freshSeed : Nat) :
    ResolveOutcome :=
  match insertWorld s roomId freshSeed pid with
  | (s', true) => { worldSeed := freshSeed, isHost := true, store := s' }
  | (_, false) =>
    match s roomId with
    | some w => { worldSeed := w.seed, isHost := false, store := s }
    | none => { worldSeed := freshSeed, isHost := true, store := s }

/-- The writes the core ever issues against the "worlds" store: the
host-claim owner update (src/math.js lines 484-487) and the new-world
insert (lines 500-505).  No other code path writes to this table. -/
inductive CoreWrite where
  | claimOwner (roomId pid : String)
  | insert (roomId : String) (seed : Nat) (pid : String)

/-- Apply one core write to the store. -/
def applyWrite (s : Store) : CoreWrite → Store
  | .claimOwner roomId pid => updateOwnerWhereId s roomId pid
  | .insert roomId seed pid => (insertWorld s roomId seed pid).1

/-- Apply a sequence of core writes, in order. -/
def applyWrites (s : Store) : List CoreWrite → Store
  | [] => s
  | w :: ws => applyWrites (applyWrite s w) ws

/-- Seed field of an optional record. -/
def seedOf (o : Option WorldRecord) : Option Nat := o.map WorldRecord.seed

/-- Mutable state of a multiplayer manager relevant to broadcasting and
teardown: whether `channel` is non-null, `lastBroadcastTime`, and whether
the heartbeat `setInterval` (src/math.js lines 440-451) and the delayed
roster-sync `setTimeout` (lines 526-552) are currently scheduled. -/
structure ManagerState where
  channel : Bool
  lastBroadcastTime : Nat
  heartbeatScheduled : Bool
  delayedSyncScheduled : Bool
deriving DecidableEq

/-- src/math.js line 139. -/
def BROADCAST_THROTTLE_MS : Nat := 50

/-- src/math.js lines 565-588: `broadcastPosition` returns without
sending when the channel is null or when fewer than
`BROADCAST_THROTTLE_MS` ms have passed since the last accepted send;
otherwise it records `now` and sends.  The Bool is "a transport send
happened". -/
def broadcastPosition (st : ManagerState) (now : Nat) : ManagerState × Bool :=
  if st.channel = false then (st, false)
  else if now - st.lastBroadcastTime < BROADCAST_THROTTLE_MS then (st, false)
  else ({ st with lastBroadcastTime := now }, true)

/-- Timer effect of `init`: after subscription the heartbeat interval is
scheduled (src/math.js line 440) and the delayed sync timeout is pending
(line 526). -/
def scheduleInitTimers (st : ManagerState) : ManagerState :=
  { st with heartbeatScheduled := true, delayedSyncScheduled := true }

/-- src/math.js lines 594-605: `leave` returns at once on a null channel;
otherwise it untracks presence, removes the channel and sets
`channel = null`.  The source stores no interval/timeout handle and calls
neither `clearInterval` nor `clearTimeout`, so the scheduled-timer flags
are untouched. -/
def leave (st : ManagerState) : ManagerState :=
  if st.channel = false then st else { st with channel := false }

/-- Presence metadata of one peer as read by the handlers: the fields may
be absent on the wire, hence `Option`. -/
structure PresenceData where
  lastActive : Option Nat
  joinedAt : Option Nat
deriving DecidableEq

/-- JS `a || b` on an optional number against a default: the default is
taken when the value is absent (`undefined`) or `0` (falsy). -/
def jsOr (v : Option Nat) (d : Nat) : Nat :=
  match v with
  | none => d
  | some 0 => d
  | some n => n

/-- The timestamp the handlers test against the staleness threshold:
`presenceData?.joinedAt || 0` then `presenceData?.lastActive || joinedAt`
(src/math.js lines 339-340; the join handler's
`presence?.lastActive || presence?.joinedAt || 0` at line 367 is the same
function). -/
def effectiveLastActive (d : Option PresenceData) : Nat :=
  jsOr (d.bind PresenceData.lastActive) (jsOr (d.bind PresenceData.joinedAt) 0)

/-- src/math.js line 331. -/
def STALE_THRESHOLD : Nat := 300000

/-- Context for one presence event delivery: the local peer id, the
current time, and whether the game registered a join / presence-update
callback. -/
structure SyncCtx where
  selfId : String
  now : Nat
  hasJoinCb : Bool
  hasUpdateCb : Bool

/-- A callback invocation performed by a presence handler. -/
inductive PresenceEvent where
  | join (pid : String) (d : Option PresenceData)
  | update (pid : String) (d : Option PresenceData)
deriving DecidableEq

/-- The peer a callback invocation is about. -/
def PresenceEvent.key : PresenceEvent → String
  | .join p _ => p
  | .update p _ => p

/-- Whether an invocation is a join callback. -/
def PresenceEvent.isJoin : PresenceEvent → Bool
  | .join _ _ => true
  | .update _ _ => false

/-- Number of join-callback invocations for peer `q` in an event list. -/
def joinCount (q : String) (evs : List PresenceEvent) : Nat :=
  (evs.filter (fun ev => ev.isJoin && (ev.key == q))).length

/-- Number of presence-update invocations for peer `q` in an event list. -/
def updateCount (q : String) (evs : List PresenceEvent) : Nat :=
  (evs.filter (fun ev => !ev.isJoin && (ev.key == q))).length

/-- src/math.js lines 333-357, the body of the sync handler's loop for
one roster entry `(pid, state[pid]?.[0])`: skip self, skip stale entries,
spawn-and-join unseen peers, otherwise report a presence update.  Returns
the updated spawned set and the callback invocations emitted. -/
def processSyncEntry (ctx : SyncCtx) (spawned : List String)
    (entry : String × Option PresenceData) : List String × List PresenceEvent :=
  if entry.1 = ctx.selfId then (spawned, [])
  else if STALE_THRESHOLD < ctx.now - effectiveLastActive entry.2 then (spawned, [])
  else if entry.1 ∈ spawned then
    (spawned, if ctx.hasUpdateCb then [.update entry.1 entry.2] else [])
  else
    (entry.1 :: spawned, if ctx.hasJoinCb then [.join entry.1 entry.2] else [])

/-- src/math.js lines 325-358: the sync handler processes every roster
entry in order, threading the spawned set through. -/
def processSync (ctx : SyncCtx) (spawned : List String) :
    List (String × Option PresenceData) → List String × List PresenceEvent
  | [] => (spawned, [])
  | e :: es =>
    let r := processSyncEntry ctx spawned e
    let rest := processSync ctx r.1 es
    (rest.1, r.2 ++ rest.2)

/-- src/math.js lines 360-378: the presence join handler for one event
`(key, newPresences[0])`: ignore self and already-spawned peers, drop
stale presences, otherwise spawn and invoke the join callback. -/
def processJoin (ctx : SyncCtx) (spawned : List String) (key : String)
    (d : Option PresenceData) : List String × List PresenceEvent :=
  if key = ctx.selfId then (spawned, [])
  else if key ∈ spawned then (spawned, [])
  else if STALE_THRESHOLD < ctx.now - effectiveLastActive d then (spawned, [])
  else (key :: spawned, if ctx.hasJoinCb then [.join key d] else [])

/-- An injected Supabase client (opaque to the core beyond being set). -/
structure SupabaseClient where
  handle : String
deriving DecidableEq

/-- src/math.js line 128: module state `_supabaseClient = null` before
any `setSupabaseClient` call. -/
def initialSupabaseClient : Option SupabaseClient := none

/-- src/math.js lines 135-137: the setter stores its argument. -/
def setSupabaseClient (client : Option SupabaseClient) : Option SupabaseClient :=
  client

/-- The manager object returned by a successful `createMultiplayerManager`
call, with the closure constants and initial mutable state it sets up
(src/math.js lines 158-174). -/
structure Manager where
  roomId : String
  channelName : String
  state : ManagerState
deriving DecidableEq

/-- src/math.js lines 158-166: throw unless a client was injected, else
return the manager with its channel name and initial state. -/
def createMultiplayerManager (client : Option SupabaseClient) (worldId : String) :
    Except String Manager :=
  match client with
  | none => .error "Supabase client not set. Call setSupabaseClient() first."
  | some _ =>
    .ok { roomId := worldId
          channelName := "game_room_" ++ worldId
          state := { channel := false, lastBroadcastTime := 0,
                     heartbeatScheduled := false, delayedSyncScheduled := false } }

/-- Whether a `createMultiplayerManager` call returned a manager. -/
def managerOk (e : Except String Manager) : Bool :=
  match e with
  | .ok _ => true
  | .error _ => false

/-- Store used in the C2 and C8 witnesses: room "portal" exists with seed
42 and owner "p2". -/
def c2Store : Store :=
  fun key =>
    if key = "portal" then some { seed := 42, owner_player_id := some "p2", name := "W" }
    else none

/-- Store used in the C3 witness: room "portal" exists with seed 99. -/
def c3Store : Store :=
  fun key =>
    if key = "portal" then some { seed := 99, owner_player_id := some "p2", name := "W" }
    else none

/-- The empty store. -/
def emptyStore : Store := fun _ => none

/-- Store used in the C8 witness: room "portal" exists with seed 99 and
no owner. -/
def c8Store : Store :=
  fun key =>
    if key = "portal" then some { seed := 99, owner_player_id := none, name := "W" }
    else none

/-- Write sequence used in the C8 witness. -/
def c8Ops : List CoreWrite :=
  [CoreWrite.claimOwner "portal" "p1", CoreWrite.insert "portal" 5 "p3",
   CoreWrite.claimOwner "other" "p9", CoreWrite.insert "other" 6 "p9"]

/-- Presence data of the C5 counterexample: `lastActive` present and equal
to 0, `joinedAt` equal to the current time. -/
def c5Data : Option PresenceData := some { lastActive := some 0, joinedAt := some 1000000 }

/-- Context of the C5 counterexample. -/
def c5Ctx : SyncCtx :=
  { selfId := "me", now := 1000000, hasJoinCb := true, hasUpdateCb := true }

/-- Presence data used in the C5 amended witness: genuinely stale under
the code's reading (`lastActive = 100` against `now = 1000000`). -/
def c5StaleData : Option PresenceData := some { lastActive := some 100, joinedAt := some 50 }

/-- Context of the C7 witness. -/
def c7Ctx : SyncCtx :=
  { selfId := "me", now := 1000, hasJoinCb := true, hasUpdateCb := true }

/-- Presence data of the C7 witness: recent activity, hence not stale. -/
def c7Data : Option PresenceData := some { lastActive := some 900, joinedAt := some 800 }

theorem U32_eq_pow : U32 = 2 ^ 32 := by norm_num [U32]

theorem worldOk_step (w : RngWorld) (op : RngOp) (h : WorldOk w) :
    WorldOk (w.step op).1 := by
  cases op with
  | create s x z =>
    intro gen hg
    simp only [RngWorld.step, List.mem_append, List.mem_singleton] at hg
    rcases hg with hg | hg
    · exact h gen hg
    · subst hg
      rfl
  | query g =>
    intro gen hg
    cases hget : w.gens.get? g with
    | none =>
      simp only [RngWorld.step, hget] at hg
      exact h gen hg
    | some gen0 =>
      simp only [RngWorld.step, hget] at hg
      rcases List.mem_or_eq_of_mem_set hg with hmem | heq
      · exact h gen hmem
      · subst heq
        have h0 : GenOk gen0 := h gen0 (List.get?_mem hget)
        show (mulberry32Step gen0.st).1
          = mulberryState (hashPosition gen0.seed gen0.x gen0.z) (gen0.count + 1)
        rw [h0]
        rfl

theorem worldOk_run (w : RngWorld) (ops : List RngOp) (h : WorldOk w) :
    WorldOk (w.run ops) := by
  induction ops generalizing w with
  | nil => exact h
  | cons op ops ih => exact ih _ (worldOk_step w op h)

theorem worldOk_empty : WorldOk ⟨[]⟩ := by
  intro gen hg
  simp at hg

/-- In any run from the empty world, the next output of a generator is a
pure function of its creation arguments and its call count. -/
theorem rng_next_output (ops : List RngOp) (g : Nat) (gen : PosGen)
    (h : (RngWorld.run ⟨[]⟩ ops).gens.get? g = some gen) :
    ((RngWorld.run ⟨[]⟩ ops).step (RngOp.query g)).2
      = some (mulberryOut (hashPosition gen.seed gen.x gen.z) gen.count) := by
  have hok : WorldOk (RngWorld.run ⟨[]⟩ ops) := worldOk_run _ _ worldOk_empty
  have hgen : GenOk gen := hok gen (List.get?_mem h)
  simp only [RngWorld.step, h]
  rw [hgen]
  rfl

/-- C9: for all integer seed, x and z the position hash is the stated
combination — seed xored with the truncated coordinates, multiplied by the
two odd constants 0x85EBCA6B and 0xC2B2AE35 with 32-bit wraparound, then
xor-shift mixed — and the result is a single 32-bit unsigned value in
[0, 2^32). -/
theorem c9_hashPosition_spec (seed x z : Int) :
    hashPosition seed x z < 2 ^ 32
    ∧ hashPosition seed x z = hashPositionWrap seed x z
    ∧ 0x85EBCA6B % 2 = 1 ∧ 0xC2B2AE35 % 2 = 1 := by
  have hpos : 0 < 2 ^ 32 := by norm_num
  refine ⟨?_, ?_, by norm_num, by norm_num⟩
  · show _ % U32 < 2 ^ 32
    rw [U32_eq_pow]
    exact Nat.mod_lt _ hpos
  · unfold hashPosition hashPositionWrap jsImul
    simp only [Nat.shiftRight_eq_div_pow, U32_eq_pow]
    exact Nat.mod_eq_of_lt
      (Nat.bitwise_lt (Nat.mod_lt _ hpos)
        (lt_of_le_of_lt (Nat.div_le_self _ _) (Nat.mod_lt _ hpos)))

/-- C10: with no client injected (the module's initial state, or after
`setSupabaseClient` was never given a non-null client)
`createMultiplayerManager` throws and never returns a manager; once a
non-null client is set it returns a manager without throwing. -/
theorem c10_createMultiplayerManager_guard (worldId : String) :
    createMultiplayerManager initialSupabaseClient worldId
      = Except.error "Supabase client not set. Call setSupabaseClient() first."
    ∧ managerOk (createMultiplayerManager (setSupabaseClient none) worldId) = false
    ∧ ∀ c : SupabaseClient,
        managerOk (createMultiplayerManager (setSupabaseClient (some c)) worldId) = true := by
  refine ⟨rfl, rfl, fun c => rfl⟩

/-- C2: the claim is false of the code — the host-claim write
(`update({ owner_player_id }).eq("id", roomId)`, src/math.js lines
484-487) is conditioned only on the row id, not on the owner still being
null.  At a store whose "portal" record already carries owner "p2"
(set by another peer between the read and the write), the claim write by
"p1" overwrites "p2".  The spec calls exactly this unconditional
overwrite a correctness violation, so the code, not the claim, is wrong. -/
theorem c2_claim_write_overwrites_owner :
    c2Store "portal" = some { seed := 42, owner_player_id := some "p2", name := "W" }
    ∧ updateOwnerWhereId c2Store "portal" "p1" "portal"
        = some { seed := 42, owner_player_id := some "p1", name := "W" } := by
  constructor
  · rfl
  · rfl

/-- C6: the claim is false of the code — `leave()` (src/math.js lines
594-605) only untracks presence, removes the channel and nulls `channel`;
the heartbeat `setInterval` handle is never stored and neither
`clearInterval` nor `clearTimeout` is ever called, so after `leave`
completes both timers are still scheduled.  The spec explicitly says
failing to cancel them must be treated as a bug, so this is a code bug. -/
theorem c6_leave_does_not_cancel_timers :
    (leave (scheduleInitTimers ⟨true, 0, false, false⟩)).channel = false
    ∧ (leave (scheduleInitTimers ⟨true, 0, false, false⟩)).heartbeatScheduled = true
    ∧ (leave (scheduleInitTimers ⟨true, 0, false, false⟩)).delayedSyncScheduled = true := by
  refine ⟨rfl, rfl, rfl⟩

/-- C3: in the not-found branch of `init` (src/math.js lines 494-523) the
outcome on insert success is the fresh seed, host status, and a stored
record owned by the local peer; whenever the insert is rejected because a
record now exists, the re-read record's seed is adopted with
`isHost = false`. -/
theorem c3_createWorldPath_race (s : Store) (roomId pid : String) (freshSeed : Nat) :
    (s roomId = none →
        (createWorldPath s roomId pid freshSeed).worldSeed = freshSeed
        ∧ (createWorldPath s roomId pid freshSeed).isHost = true
        ∧ (createWorldPath s roomId pid freshSeed).store roomId
            = some { seed := freshSeed, owner_player_id := some pid,
                     name := "Untitled World" })
    ∧ ∀ w : WorldRecord, s roomId = some w →
        (createWorldPath s roomId pid freshSeed).worldSeed = w.seed
        ∧ (createWorldPath s roomId pid freshSeed).isHost = false := by
  constructor
  · intro h
    simp [createWorldPath, insertWorld, h]
  · intro w h
    simp [createWorldPath, insertWorld, h]

/-- C3 witness: on an empty store the insert succeeds with the fresh seed
7 and host status; on a store where "portal" already has seed 99 the
insert is rejected and seed 99 is adopted without host status. -/
theorem c3_createWorldPath_race_witness :
    ((createWorldPath emptyStore "portal" "p1" 7).worldSeed = 7
      ∧ (createWorldPath emptyStore "portal" "p1" 7).isHost = true
      ∧ (createWorldPath emptyStore "portal" "p1" 7).store "portal"
          = some { seed := 7, owner_player_id := some "p1", name := "Untitled World" })
    ∧ ((createWorldPath c3Store "portal" "p1" 7).worldSeed = 99
      ∧ (createWorldPath c3Store "portal" "p1" 7).isHost = false) :=
  ⟨(c3_createWorldPath_race emptyStore "portal" "p1" 7).1 rfl,
   (c3_createWorldPath_race c3Store "portal" "p1" 7).2
     { seed := 99, owner_player_id := some "p2", name := "W" } (by decide)⟩

/-- C4: with the channel open and the first call accepted, a second call
strictly less than `BROADCAST_THROTTLE_MS` (50) ms after the first
accepted send is dropped with no state change (one transport send in
total), while a second call 50 ms or more after it is sent (two transport
sends in total). -/
theorem c4_broadcastPosition_throttle (st : ManagerState) (t1 t2 : Nat)
    (hch : st.channel = true)
    (h1 : BROADCAST_THROTTLE_MS ≤ t1 - st.lastBroadcastTime)
    (h12 : t1 ≤ t2) :
    (broadcastPosition st t1).2 = true
    ∧ (t2 - t1 < BROADCAST_THROTTLE_MS →
        (broadcastPosition (broadcastPosition st t1).1 t2).2 = false
        ∧ (broadcastPosition (broadcastPosition st t1).1 t2).1
            = (broadcastPosition st t1).1)
    ∧ (BROADCAST_THROTTLE_MS ≤ t2 - t1 →
        (broadcastPosition (broadcastPosition st t1).1 t2).2 = true) := by
  have hnot1 : ¬ (t1 - st.lastBroadcastTime < BROADCAST_THROTTLE_MS) := not_lt.mpr h1
  refine ⟨by simp [broadcastPosition, hch, hnot1], ?_, ?_⟩
  · intro h2
    constructor
    · simp [broadcastPosition, hch, hnot1, h2]
    · simp [broadcastPosition, hch, hnot1, h2]
  · intro h2
    have hnot2 : ¬ (t2 - t1 < BROADCAST_THROTTLE_MS) := not_lt.mpr h2
    simp [broadcastPosition, hch, hnot1, hnot2]

/-- C4 witness: from an open channel with last send at 0, a call at
t=100 sends, a second call at t=120 (20 ms later) is dropped leaving the
state unchanged, and a call at t=150 (50 ms later) sends. -/
theorem c4_broadcastPosition_throttle_witness :
    ((broadcastPosition ⟨true, 0, false, false⟩ 100).2 = true
      ∧ (broadcastPosition (broadcastPosition ⟨true, 0, false, false⟩ 100).1 120).2 = false
      ∧ (broadcastPosition (broadcastPosition ⟨true, 0, false, false⟩ 100).1 120).1
          = (broadcastPosition ⟨true, 0, false, false⟩ 100).1)
    ∧ (broadcastPosition (broadcastPosition ⟨true, 0, false, false⟩ 100).1 150).2 = true :=
  ⟨⟨(c4_broadcastPosition_throttle ⟨true, 0, false, false⟩ 100 120 rfl (by decide) (by decide)).1,
    (c4_broadcastPosition_throttle ⟨true, 0, false, false⟩ 100 120 rfl (by decide) (by decide)).2.1
      (by decide)⟩,
   (c4_broadcastPosition_throttle ⟨true, 0, false, false⟩ 100 150 rfl (by decide) (by decide)).2.2
     (by decide)⟩

theorem seed_preserved_one (s : Store) (wr : CoreWrite) (roomId : String)
    (w : WorldRecord) (h : s roomId = some w) :
    ∃ w' : WorldRecord, applyWrite s wr roomId = some w' ∧ w'.seed = w.seed := by
  cases wr with
  | claimOwner r pid =>
    by_cases hr : roomId = r
    · subst hr
      refine ⟨{ w with owner_player_id := some pid }, ?_, rfl⟩
      simp [applyWrite, updateOwnerWhereId, h]
    · refine ⟨w, ?_, rfl⟩
      simp [applyWrite, updateOwnerWhereId, hr, h]
  | insert r seed pid =>
    cases hsr : s r with
    | some w0 =>
      refine ⟨w, ?_, rfl⟩
      simp [applyWrite, insertWorld, hsr, h]
    | none =>
      have hne : roomId ≠ r := by
        intro he
        rw [he, hsr] at h
        exact Option.noConfusion h
      refine ⟨w, ?_, rfl⟩
      simp [applyWrite, insertWorld, hsr, hne, h]

theorem seed_preserved_many (ops : List CoreWrite) (s : Store) (roomId : String)
    (w : WorldRecord) (h : s roomId = some w) :
    ∃ w' : WorldRecord, applyWrites s ops roomId = some w' ∧ w'.seed = w.seed := by
  induction ops generalizing s w with
  | nil => exact ⟨w, h, rfl⟩
  | cons wr ops ih =>
    obtain ⟨w1, h1, hs1⟩ := seed_preserved_one s wr roomId w h
    obtain ⟨w2, h2, hs2⟩ := ih (applyWrite s wr) w1 h1
    exact ⟨w2, h2, hs2.trans hs1⟩

/-- C8: no sequence of store writes performed by the core (host-claim
owner updates and insert-if-absent creations) changes the seed of a room
record that exists: the record is still present afterwards and its seed
is the seed it was created with. -/
theorem c8_seed_never_changed (ops : List CoreWrite) (s : Store) (roomId : String)
    (w : WorldRecord) (h : s roomId = some w) :
    seedOf (applyWrites s ops roomId) = some w.seed := by
  obtain ⟨w', h', hs⟩ := seed_preserved_many ops s roomId w h
  rw [h', ← hs]
  rfl

/-- C8 witness: on a store where "portal" was created with seed 99, a
concrete write sequence containing owner claims for "portal" and "other"
and inserts for both rooms leaves "portal" with seed 99. -/
theorem c8_seed_never_changed_witness :
    seedOf (applyWrites c8Store c8Ops "portal") = some 99 :=
  c8_seed_never_changed c8Ops c8Store "portal"
    { seed := 99, owner_player_id := none, name := "W" } (by decide)

theorem processSync_cons (ctx : SyncCtx) (sp : List String)
    (e : String × Option PresenceData) (es : List (String × Option PresenceData)) :
    processSync ctx sp (e :: es)
      = ((processSync ctx (processSyncEntry ctx sp e).1 es).1,
         (processSyncEntry ctx sp e).2
           ++ (processSync ctx (processSyncEntry ctx sp e).1 es).2) := rfl

theorem processSyncEntry_key (ctx : SyncCtx) (sp : List String)
    (e : String × Option PresenceData) :
    ∀ ev ∈ (processSyncEntry ctx sp e).2, ev.key = e.1 := by
  intro ev hev
  unfold processSyncEntry at hev
  split_ifs at hev <;> simp_all [PresenceEvent.key]

theorem processSyncEntry_spawned (ctx : SyncCtx) (sp : List String)
    (e : String × Option PresenceData) :
    (processSyncEntry ctx sp e).1 = sp ∨ (processSyncEntry ctx sp e).1 = e.1 :: sp := by
  unfold processSyncEntry
  split_ifs <;> simp

theorem processSyncEntry_stale (ctx : SyncCtx) (sp : List String)
    (e : String × Option PresenceData)
    (h : STALE_THRESHOLD < ctx.now - effectiveLastActive e.2) :
    processSyncEntry ctx sp e = (sp, []) := by
  unfold processSyncEntry
  split_ifs <;> simp_all

theorem joinCount_append (q : String) (a b : List PresenceEvent) :
    joinCount q (a ++ b) = joinCount q a + joinCount q b := by
  simp [joinCount, List.filter_append]

theorem updateCount_append (q : String) (a b : List PresenceEvent) :
    updateCount q (a ++ b) = updateCount q a + updateCount q b := by
  simp [updateCount, List.filter_append]

theorem counts_zero_of_key_ne (q : String) (evs : List PresenceEvent)
    (h : ∀ ev ∈ evs, ev.key ≠ q) :
    joinCount q evs = 0 ∧ updateCount q evs = 0 := by
  constructor
  · simp only [joinCount, List.length_eq_zero, List.filter_eq_nil_iff]
    intro ev hev
    simp [beq_eq_false_iff_ne.mpr (h ev hev)]
  · simp only [updateCount, List.length_eq_zero, List.filter_eq_nil_iff]
    intro ev hev
    simp [beq_eq_false_iff_ne.mpr (h ev hev)]

theorem processSync_unmentioned (ctx : SyncCtx) (q : String)
    (es : List (String × Option PresenceData)) (sp : List String)
    (h : q ∉ es.map Prod.fst) :
    (q ∈ (processSync ctx sp es).1 ↔ q ∈ sp)
    ∧ joinCount q (processSync ctx sp es).2 = 0
    ∧ updateCount q (processSync ctx sp es).2 = 0 := by
  induction es generalizing sp with
  | nil => simp [processSync, joinCount, updateCount]
  | cons e es ih =>
    simp only [List.map_cons, List.mem_cons, not_or] at h
    obtain ⟨hq1, hq2⟩ := h
    rw [processSync_cons]
    have hzero := counts_zero_of_key_ne q (processSyncEntry ctx sp e).2
      (fun ev hev => by rw [processSyncEntry_key ctx sp e ev hev]; exact fun he => hq1 he.symm)
    rcases processSyncEntry_spawned ctx sp e with hc | hc <;> rw [hc]
    · obtain ⟨hmem, hj, hu⟩ := ih sp hq2
      exact ⟨hmem, by simp [joinCount_append, hzero.1, hj],
             by simp [updateCount_append, hzero.2, hu]⟩
    · obtain ⟨hmem, hj, hu⟩ := ih (e.1 :: sp) hq2
      refine ⟨?_, by simp [joinCount_append, hzero.1, hj],
              by simp [updateCount_append, hzero.2, hu]⟩
      rw [hmem, List.mem_cons]
      exact or_iff_right hq1

theorem processSync_stale_skipped (ctx : SyncCtx) (pid : String)
    (d : Option PresenceData)
    (hstale : STALE_THRESHOLD < ctx.now - effectiveLastActive d) :
    ∀ (es : List (String × Option PresenceData)) (sp : List String),
      (es.map Prod.fst).Nodup → (pid, d) ∈ es →
      ((pid ∈ (processSync ctx sp es).1 ↔ pid ∈ sp)
        ∧ joinCount pid (processSync ctx sp es).2 = 0
        ∧ updateCount pid (processSync ctx sp es).2 = 0) := by
  intro es
  induction es with
  | nil =>
    intro sp _ hmem
    simp at hmem
  | cons e es ih =>
    intro sp hkeys hmem
    simp only [List.map_cons, List.nodup_cons] at hkeys
    obtain ⟨hk1, hk2⟩ := hkeys
    rw [processSync_cons]
    rcases List.mem_cons.mp hmem with he | he
    · subst he
      simp only [processSyncEntry_stale ctx sp (pid, d) hstale, List.nil_append]
      exact processSync_unmentioned ctx pid es sp (by simpa using hk1)
    · have hpidmem : pid ∈ es.map Prod.fst := List.mem_map.mpr ⟨(pid, d), he, rfl⟩
      have hne : ¬ e.1 = pid := fun hEq => hk1 (hEq ▸ hpidmem)
      have hzero := counts_zero_of_key_ne pid (processSyncEntry ctx sp e).2
        (fun ev hev => by rw [processSyncEntry_key ctx sp e ev hev]; exact hne)
      rcases processSyncEntry_spawned ctx sp e with hc | hc <;> rw [hc]
      · obtain ⟨hmem', hj, hu⟩ := ih sp hk2 he
        exact ⟨hmem', by simp [joinCount_append, hzero.1, hj],
               by simp [updateCount_append, hzero.2, hu]⟩
      · obtain ⟨hmem', hj, hu⟩ := ih (e.1 :: sp) hk2 he
        refine ⟨?_, by simp [joinCount_append, hzero.1, hj],
                by simp [updateCount_append, hzero.2, hu]⟩
        rw [hmem', List.mem_cons]
        exact or_iff_right (fun hEq => hne hEq.symm)

/-- C5 counterexample: the claim, read as stated, fails on the code.  The
roster entry for "p1" carries a PRESENT `lastActive` equal to 0 alongside
`joinedAt = now`; the claim's timestamp ("lastActive, falling back to
joinedAt when absent") is therefore 0, which is more than 300000 ms before
`now = 1000000`, so the claim requires the entry to be excluded and the
join callback not to fire.  The code's `presenceData?.lastActive ||
joinedAt` treats the present value 0 as falsy, falls back to the fresh
`joinedAt`, spawns "p1" and fires the join callback once. -/
theorem c5_counterexample :
    (Option.bind c5Data PresenceData.lastActive = some 0
      ∧ STALE_THRESHOLD < c5Ctx.now - 0)
    ∧ (processSync c5Ctx [] [("p1", c5Data)]).1 = ["p1"]
    ∧ joinCount "p1" (processSync c5Ctx [] [("p1", c5Data)]).2 = 1 := by decide

/-- C5 (amended): for every remote presence entry whose effective
last-activity timestamp — `lastActive` when present and nonzero, else
`joinedAt` when present and nonzero, else 0 — is more than 300000 ms
before the current time, processing a presence sync leaves the entry's
membership in the spawned set unchanged and emits no join (and no update)
callback for it, and processing a presence join event for a peer with
such a timestamp changes nothing and emits no callback. -/
theorem c5_stale_excluded (ctx : SyncCtx) (sp : List String)
    (es : List (String × Option PresenceData)) (pid : String)
    (d : Option PresenceData)
    (hkeys : (es.map Prod.fst).Nodup) (hmem : (pid, d) ∈ es)
    (hstale : STALE_THRESHOLD < ctx.now - effectiveLastActive d) :
    ((pid ∈ (processSync ctx sp es).1 ↔ pid ∈ sp)
      ∧ joinCount pid (processSync ctx sp es).2 = 0
      ∧ updateCount pid (processSync ctx sp es).2 = 0)
    ∧ ∀ (key : String) (d' : Option PresenceData),
        STALE_THRESHOLD < ctx.now - effectiveLastActive d' →
        processJoin ctx sp key d' = (sp, []) := by
  refine ⟨processSync_stale_skipped ctx pid d hstale es sp hkeys hmem, ?_⟩
  intro key d' hd
  unfold processJoin
  split_ifs <;> simp_all

/-- C5 witness: a peer whose `lastActive` is 100 against `now = 1000000`
is stale under the code's reading; the sync leaves the empty spawned set
empty and emits nothing, and a join event for it is a no-op. -/
theorem c5_stale_excluded_witness :
    ((("p1" ∈ (processSync c5Ctx [] [("p1", c5StaleData)]).1)
        ↔ ("p1" ∈ ([] : List String)))
      ∧ joinCount "p1" (processSync c5Ctx [] [("p1", c5StaleData)]).2 = 0
      ∧ updateCount "p1" (processSync c5Ctx [] [("p1", c5StaleData)]).2 = 0)
    ∧ processJoin c5Ctx [] "p9" c5StaleData = ([], []) :=
  ⟨(c5_stale_excluded c5Ctx [] [("p1", c5StaleData)] "p1" c5StaleData (by decide)
      (by decide) (by decide)).1,
   (c5_stale_excluded c5Ctx [] [("p1", c5StaleData)] "p1" c5StaleData (by decide)
      (by decide) (by decide)).2 "p9" c5StaleData (by decide)⟩

theorem processSync_known_update (ctx : SyncCtx) (q : String)
    (d : Option PresenceData)
    (hq : ¬ q = ctx.selfId)
    (hfresh : ¬ (STALE_THRESHOLD < ctx.now - effectiveLastActive d))
    (hcb : ctx.hasUpdateCb = true) :
    ∀ (es : List (String × Option PresenceData)) (sp : List String),
      (es.map Prod.fst).Nodup → (q, d) ∈ es → q ∈ sp →
      updateCount q (processSync ctx sp es).2 = 1
      ∧ joinCount q (processSync ctx sp es).2 = 0 := by
  intro es
  induction es with
  | nil =>
    intro sp _ hmem _
    simp at hmem
  | cons e es ih =>
    intro sp hkeys hmem hsp
    simp only [List.map_cons, List.nodup_cons] at hkeys
    obtain ⟨hk1, hk2⟩ := hkeys
    rw [processSync_cons]
    rcases List.mem_cons.mp hmem with he | he
    · subst he
      have hentry : processSyncEntry ctx sp (q, d)
          = (sp, [PresenceEvent.update q d]) := by
        simp [processSyncEntry, hq, hfresh, hsp, hcb]
      rw [hentry]
      obtain ⟨_, hj, hu⟩ := processSync_unmentioned ctx q es sp (by simpa using hk1)
      have h1 : updateCount q [PresenceEvent.update q d] = 1 := by
        simp [updateCount, PresenceEvent.isJoin, PresenceEvent.key]
      have h0 : joinCount q [PresenceEvent.update q d] = 0 := by
        simp [joinCount, PresenceEvent.isJoin]
      exact ⟨by rw [updateCount_append, h1, hu], by rw [joinCount_append, h0, hj]⟩
    · have hqmem : q ∈ es.map Prod.fst := List.mem_map.mpr ⟨(q, d), he, rfl⟩
      have hne : ¬ e.1 = q := fun hEq => hk1 (hEq ▸ hqmem)
      have hzero := counts_zero_of_key_ne q (processSyncEntry ctx sp e).2
        (fun ev hev => by rw [processSyncEntry_key ctx sp e ev hev]; exact hne)
      rcases processSyncEntry_spawned ctx sp e with hc | hc <;> rw [hc]
      · obtain ⟨hu, hj⟩ := ih sp hk2 he hsp
        exact ⟨by simp [updateCount_append, hzero.2, hu],
               by simp [joinCount_append, hzero.1, hj]⟩
      · obtain ⟨hu, hj⟩ := ih (e.1 :: sp) hk2 he (List.mem_cons_of_mem e.1 hsp)
        exact ⟨by simp [updateCount_append, hzero.2, hu],
               by simp [joinCount_append, hzero.1, hj]⟩

/-- C7: when a presence sync reports a non-stale remote peer that is
already in the spawned set (and the update callback is registered),
processing the sync invokes the presence-update callback for that peer
exactly once and the join callback zero times. -/
theorem c7_known_peer_sync_update (ctx : SyncCtx) (sp : List String)
    (es : List (String × Option PresenceData)) (q : String)
    (d : Option PresenceData)
    (hkeys : (es.map Prod.fst).Nodup) (hmem : (q, d) ∈ es) (hsp : q ∈ sp)
    (hq : ¬ q = ctx.selfId)
    (hfresh : ¬ (STALE_THRESHOLD < ctx.now - effectiveLastActive d))
    (hcb : ctx.hasUpdateCb = true) :
    updateCount q (processSync ctx sp es).2 = 1
    ∧ joinCount q (processSync ctx sp es).2 = 0 :=
  processSync_known_update ctx q d hq hfresh hcb es sp hkeys hmem hsp

/-- C7 witness: peer "p1" is already spawned and reappears, non-stale, in
a sync; exactly one update callback and zero join callbacks result. -/
theorem c7_known_peer_sync_update_witness :
    updateCount "p1" (processSync c7Ctx ["p1"] [("p1", c7Data)]).2 = 1
    ∧ joinCount "p1" (processSync c7Ctx ["p1"] [("p1", c7Data)]).2 = 0 :=
  c7_known_peer_sync_update c7Ctx ["p1"] [("p1", c7Data)] "p1" c7Data
    (by decide) (by decide) (by decide) (by decide) (by decide) rfl

/-- C1: in any two runs (any operation interleavings, any other positions
queried before, between or after), the next output of a position
generator is `mulberryOut (hashPosition seed x z) count`, a pure function
of its creation triple and of how many times it has been called; hence
two generators created with the same `(seed, x, z)` produce equal n-th
outputs for every n, independent of call order and of other queries. -/
theorem c1_positionRandom_deterministic (ops ops' : List RngOp) (g g' : Nat)
    (gen gen' : PosGen)
    (h : (RngWorld.run ⟨[]⟩ ops).gens.get? g = some gen)
    (h' : (RngWorld.run ⟨[]⟩ ops').gens.get? g' = some gen')
    (hs : gen.seed = gen'.seed) (hx : gen.x = gen'.x) (hz : gen.z = gen'.z)
    (hc : gen.count = gen'.count) :
    ((RngWorld.run ⟨[]⟩ ops).step (RngOp.query g)).2
      = some (mulberryOut (hashPosition gen.seed gen.x gen.z) gen.count)
    ∧ ((RngWorld.run ⟨[]⟩ ops).step (RngOp.query g)).2
      = ((RngWorld.run ⟨[]⟩ ops').step (RngOp.query g')).2 := by
  have e1 := rng_next_output ops g gen h
  have e2 := rng_next_output ops' g' gen' h'
  refine ⟨e1, ?_⟩
  rw [e1, e2, hs, hx, hz, hc]

/-- C1 witness: the generator for `(0, 0, 0)` yields the same first
output whether it was the only generator created or another position
`(5, 6, 7)` was created and queried in between. -/
theorem c1_positionRandom_deterministic_witness :
    ((RngWorld.run ⟨[]⟩ [RngOp.create 0 0 0]).step (RngOp.query 0)).2
      = some (mulberryOut (hashPosition 0 0 0) 0)
    ∧ ((RngWorld.run ⟨[]⟩ [RngOp.create 0 0 0]).step (RngOp.query 0)).2
      = ((RngWorld.run ⟨[]⟩
            [RngOp.create 0 0 0, RngOp.create 5 6 7, RngOp.query 1]).step
          (RngOp.query 0)).2 :=
  c1_positionRandom_deterministic [RngOp.create 0 0 0]
    [RngOp.create 0 0 0, RngOp.create 5 6 7, RngOp.query 1] 0 0
    (createPositionRandom 0 0 0) (createPositionRandom 0 0 0)
    rfl rfl rfl rfl rfl rfl

/-- C9 witness: concrete instance of the hash characterization. -/
theorem c9_hashPosition_spec_witness :
    hashPosition 12345 (-7) 100000 < 2 ^ 32
    ∧ hashPosition 12345 (-7) 100000 = hashPositionWrap 12345 (-7) 100000 :=
  ⟨(c9_hashPosition_spec 12345 (-7) 100000).1,
   (c9_hashPosition_spec 12345 (-7) 100000).2.1⟩

/-- C10 witness: concrete instance of the client guard. -/
theorem c10_createMultiplayerManager_guard_witness :
    createMultiplayerManager initialSupabaseClient "portal"
      = Except.error "Supabase client not set. Call setSupabaseClient() first."
    ∧ managerOk
        (createMultiplayerManager (setSupabaseClient (some ⟨"client"⟩)) "portal")
        = true :=
  ⟨(c10_createMultiplayerManager_guard "portal").1,
   (c10_createMultiplayerManager_guard "portal").2.2 ⟨"client"⟩⟩
